import Mathlib

/-!
Shallow embedding of the `pierre-architecte` HTTP service
(`src/api/architecte.py` and `src/api/pierre.py`): schema retrieval,
schema diffing, row-title derivation, token checks, secret masking and
best-effort log writes, together with proofs of the specification's
claims about them.

Python dicts are modelled as insertion-ordered association lists
`List (String × α)` (keys unique in practice; none of the theorems
below needs that), `Optional[T]` as `Option T`, and code that may raise
as `Except String _`.
-/

/-- Python truthiness of an optional string: `None` and `""` are falsy. -/
def truthyStr : Option String → Bool
  | none => false
  | some s => !(s == "")

/-- Python `x or dflt` for an optional string: falsy values fall back. -/
def pyOrStr (x : Option String) (dflt : String) : String :=
  match x with
  | none => dflt
  | some s => if s = "" then dflt else s

/-- Python `d.get(k)` / `d[k]` on a dict modelled as an association list
(first binding wins, as dict keys are unique). -/
def alistLookup {α : Type} : List (String × α) → String → Option α
  | [], _ => none
  | (n, v) :: rest, k => if n = k then some v else alistLookup rest k

/-- Python `k in d` on a dict. -/
def hasKey {α : Type} (l : List (String × α)) (k : String) : Bool :=
  (alistLookup l k).isSome

/-- Python `d.keys()` / iteration over a dict, in insertion order. -/
def keysOf {α : Type} (l : List (String × α)) : List String :=
  l.map Prod.fst

/-- A schema as produced by `_schema_of`: property name ↦ declared type tag. -/
abbrev Schema := List (String × String)

/-- The three diff lists returned by the compare endpoints. -/
structure DiffResult where
  missing : List String
  extra : List String
  type_mismatch : List String
deriving DecidableEq

/-- `architecte.py` lines 316-318: the diff computed by `/architecte/compare`
with `curr` the current schema and `target` the reference schema. -/
def compare (curr target : Schema) : DiffResult where
  missing := (keysOf target).filter (fun k => !hasKey curr k)
  extra := (keysOf curr).filter (fun k => !hasKey target k)
  type_mismatch := (keysOf target).filter
    (fun k => hasKey curr k && (alistLookup target k != alistLookup curr k))

/-- `pierre.py` lines 114-118: the diff computed by its `/architecte/compare`,
with `base` the current schema and `ref` the reference schema (schemas here
already projected to their type tags, as `base_schema[k]["type"]` does).
Note `type_mismatch` iterates over `base` (the current schema). -/
def comparePierre (base ref : Schema) : DiffResult where
  missing := (keysOf ref).filter (fun k => !hasKey base k)
  extra := (keysOf base).filter (fun k => !hasKey ref k)
  type_mismatch := (keysOf base).filter
    (fun k => hasKey ref k && (alistLookup base k != alistLookup ref k))

/-- Property metadata as delivered by the upstream store for one property:
`p.get("type")` may be absent. -/
structure PropMeta where
  type : Option String
deriving DecidableEq

/-- The `properties` object of a database-metadata payload. -/
abbrev PropsMeta := List (String × PropMeta)

/-- `architecte.py` `_schema_of` (lines 143-158), reduced to its projection of
the retrieved `properties` payload: `{name: p.get("type", "unknown")}`. -/
def schema_of (props : PropsMeta) : Schema :=
  props.map (fun np => (np.1, np.2.type.getD "unknown"))

/-- `pierre.py` `analyse` (line 95): `{k: v["type"] for k, v in ...}` —
the comprehension walks the entries in order and the indexing raises
(propagates a failure, modelled as `none`) at the first entry whose
type tag is absent. -/
def analyseSchemaPierre : PropsMeta → Option Schema
  | [] => some []
  | np :: rest =>
    match np.2.type with
    | none => none
    | some t => (analyseSchemaPierre rest).map (fun s => (np.1, t) :: s)

/-- `architecte.py` `_first_title_prop` (lines 137-141): first property whose
type tag equals `"title"`. -/
def firstTitleProp : PropsMeta → Option String
  | [] => none
  | (name, p) :: rest =>
    if p.type = some "title" then some name else firstTitleProp rest

/-- One text run of a title value: `part.get("plain_text", "")`. -/
structure TextRun where
  plain_text : Option String
deriving DecidableEq

/-- A row property value as read by `get_rows`: `tp.get("type")` and
`tp.get("title", [])`. -/
structure PropValue where
  type : Option String
  title : Option (List TextRun)
deriving DecidableEq

/-- The `properties` dict of one row. -/
abbrev RowProps := List (String × PropValue)

/-- `architecte.py` `get_rows` lines 285-289: derive one row's display
title. A missing property, a non-`"title"` type tag, or an empty run
list all yield `""`; the function is total. (A present-but-empty dict
`tp` is falsy in Python; it carries no `"type"` key, so it lands in the
same `""` branch here.) -/
def deriveTitle (titleProp : String) (props : RowProps) : String :=
  match alistLookup props titleProp with
  | none => ""
  | some tp =>
    if tp.type = some "title" then
      String.join ((tp.title.getD []).map (fun part => part.plain_text.getD ""))
    else ""

/-- A raw row returned by the upstream query. -/
structure Row where
  id : Option String
  properties : RowProps
deriving DecidableEq

/-- One normalised item of the `/architecte/rows` response. -/
structure Item where
  id : Option String
  title : String
  properties : RowProps
deriving DecidableEq

/-- `architecte.py` `get_rows` lines 281-290: pick the title property from the
database metadata (falling back to `"title"`) and normalise every row. -/
def rowsItems (metaProps : PropsMeta) (results : List Row) : List Item :=
  let titleProp := pyOrStr (firstTitleProp metaProps) "title"
  results.map (fun r =>
    { id := r.id, title := deriveTitle titleProp r.properties,
      properties := r.properties })

/-- The declared boundary constraint of `get_rows`'s `limit` parameter,
`Query(3, ge=1, le=100)` (`architecte.py` line 259). -/
def limitValid (limit : Int) : Bool :=
  decide (1 ≤ limit) && decide (limit ≤ 100)

/-- The `/architecte/rows` request pipeline: the framework validates the
declared `ge=1, le=100` bound and rejects with 422 before the handler
body runs; the handler issues two upstream calls (query + metadata
retrieve), counted in the second component. -/
def get_rows_pipeline (metaProps : PropsMeta) (results : List Row)
    (limit : Int) : Except Nat (List Item) × Nat :=
  if limitValid limit then (Except.ok (rowsItems metaProps results), 2)
  else (Except.error 422, 0)

/-- Outcome of a dependency-style auth check: pass, or an HTTP error. -/
inductive AuthResult where
  | ok
  | httpError (status : Nat) (detail : String)
deriving DecidableEq

/-- `architecte.py` `_read_token_from_headers` (lines 69-75). The bearer
branch: when `authorization.lower()` starts with `"bearer "`, its first
space is at index 6, so `split(" ", 1)[1]` is the substring from index 7. -/
def _read_token_from_headers (x_token authorization : Option String) :
    Option String :=
  if truthyStr x_token then x_token
  else if truthyStr authorization &&
      (authorization.getD "").toLower.startsWith "bearer " then
    some ((authorization.getD "").drop 7 |>.trim)
  else none

/-- `architecte.py` `require_token` (lines 77-94): no configured
`API_TOKEN` skips the check (dev mode); otherwise a missing token is
401 and a wrong token is 403. -/
def require_token (apiToken : Option String)
    (x_token authorization : Option String) : AuthResult :=
  if !truthyStr apiToken then AuthResult.ok
  else
    match _read_token_from_headers x_token authorization with
    | none => AuthResult.httpError 401 "X-Token manquant"
    | some t =>
      if t ≠ apiToken.getD "" then AuthResult.httpError 403 "X-Token invalide"
      else AuthResult.ok

/-- `pierre.py` `verify_token` (lines 58-62): compares the
`X-Aurel-Token` header (absent ⇒ `None`) with `os.getenv("AUREL_TOKEN")`
(unset ⇒ `None`) and raises 403 on any difference. -/
def verify_token (aurelToken : Option String) (headerToken : Option String) :
    AuthResult :=
  if headerToken ≠ aurelToken then AuthResult.httpError 403 "Token invalide"
  else AuthResult.ok

/-- `architecte.py` `_mask` on the character list of the value
(`s[:4] + "..." + s[-4:]` when longer than 8 characters). -/
def maskChars (s : List Char) : List Char :=
  if s.length > 8 then s.take 4 ++ ['.', '.', '.'] ++ s.drop (s.length - 4)
  else s

/-- `architecte.py` `_mask` (lines 121-125). -/
def _mask (val : Option String) : Option String :=
  if !truthyStr val then none
  else some (String.mk (maskChars (val.getD "").data))

/-- One entry of the `/debug/env_status` report. -/
structure EnvEntry where
  present : Bool
  masked : Option String
deriving DecidableEq

/-- `architecte.py` `_env_status` (lines 127-128), with `getenv` the
environment: each reported key carries only a presence flag and the
masked value. -/
def _env_status (getenv : String → Option String) (keys : List String) :
    List (String × EnvEntry) :=
  keys.map (fun k => (k, { present := truthyStr (getenv k),
                           masked := _mask (getenv k) }))

/-- The structured `extra` context of a log write (a Python dict). -/
abbrev MetaDict := List (String × String)

/-- Python truthiness of the optional `extra` dict: `None` and `{}` are
falsy. -/
def truthyMeta : Option MetaDict → Bool
  | none => false
  | some l => !l.isEmpty

/-- Embeds `str(extra)`; the exact rendering is irrelevant to every claim,
only which payload fields are present matters. -/
def metaToString (l : MetaDict) : String :=
  String.join (l.map (fun kv => kv.1 ++ ": " ++ kv.2))

/-- A value of the outgoing page-creation payload. -/
inductive LogValue where
  | titleV (content : String)
  | selectV (name : String)
  | richTextV (content : String)
  | dateV (start : String)
deriving DecidableEq

/-- Python dict assignment `d[k] = v`: an existing key is overwritten in
place (keeping its original insertion position); a new key is appended
at the end. -/
def dictAssign {α : Type} : List (String × α) → String → α → List (String × α)
  | [], k, v => [(k, v)]
  | (n, w) :: rest, k, v =>
    if n = k then (n, v) :: rest else (n, w) :: dictAssign rest k v

/-- `architecte.py` `_create_log_entry` lines 207-213: the `properties`
payload built from the discovered logs schema. The dict starts with the
title field and each guarded auxiliary field is *assigned* — so when
the discovered title property is itself named `"Type"`, `"Meta"` or
`"Date du changement"`, the corresponding assignment overwrites the
title entry, exactly as the Python dict does. -/
def buildLogProps (titleProp : String) (propsMeta : PropsMeta)
    (message level : String) (extra : Option MetaDict) (now : String) :
    List (String × LogValue) :=
  let props := [(titleProp, LogValue.titleV message)]
  let props := if hasKey propsMeta "Type" && !(level == "") then
    dictAssign props "Type" (LogValue.selectV level) else props
  let props := if hasKey propsMeta "Meta" && truthyMeta extra then
    dictAssign props "Meta"
      (LogValue.richTextV (metaToString (extra.getD []))) else props
  let props := if hasKey propsMeta "Date du changement" then
    dictAssign props "Date du changement" (LogValue.dateV now) else props
  props

/-- `architecte.py` `_create_log_entry` line 202 + 207-213: the payload with
the title property discovered from the schema, `or "Name"`. -/
def logPayload (propsMeta : PropsMeta) (message level : String)
    (extra : Option MetaDict) (now : String) : List (String × LogValue) :=
  buildLogProps (pyOrStr (firstTitleProp propsMeta) "Name") propsMeta
    message level extra now

/-- Result of `notion.pages.create`. -/
structure CreateRes where
  id : Option String
deriving DecidableEq

/-- The environment `_create_log_entry` runs in: configuration, and the
outcomes of its two upstream calls (metadata retrieve, page create),
each of which may raise. -/
structure LogEnv where
  logsDb : Option String
  hasNotionClient : Bool
  notionToken : Option String
  metaFetch : Except String PropsMeta
  pageCreate : List (String × LogValue) → Except String CreateRes
  now : String

/-- `architecte.py` `_create_log_entry` (lines 182-234). An `Except.error`
result would model an exception escaping the function; every fallible
step sits inside a guard or a `try`/`except` that logs and returns
`None`, so the error case never arises (this is claim C5). -/
def _create_log_entry (env : LogEnv) (message level : String)
    (extra : Option MetaDict) : Except String (Option CreateRes) :=
  if !truthyStr env.logsDb then Except.ok none
  else if !(env.hasNotionClient || truthyStr env.notionToken) then Except.ok none
  else
    match env.metaFetch with
    | Except.error _ => Except.ok none
    | Except.ok propsMeta =>
      match env.pageCreate (buildLogProps
          (pyOrStr (firstTitleProp propsMeta) "Name") propsMeta
          message level extra env.now) with
      | Except.error _ => Except.ok none
      | Except.ok res => Except.ok (some res)

/-- `architecte.py` `compare` lines 313-328 with the two schemas already
fetched: the log write at line 320 sits on the request path un-guarded,
so an exception escaping it would abort the request (`Except.error`);
the response is the diff. -/
def compare_endpoint (env : LogEnv) (curr target : Schema) :
    Except String DiffResult :=
  let diff := compare curr target
  match _create_log_entry env "Compare db → ref" "INFO"
      (some [("missing", String.join (diff.missing.take 5)),
             ("extra", String.join (diff.extra.take 5)),
             ("types", String.join (diff.type_mismatch.take 5))]) with
  | Except.error e => Except.error e
  | Except.ok _ => Except.ok diff

/-! ### Association-list lemmas -/

theorem alistLookup_isSome_iff_mem_keys {α : Type} (l : List (String × α))
    (k : String) : (alistLookup l k).isSome = true ↔ k ∈ keysOf l := by
  induction l with
  | nil => simp [alistLookup, keysOf]
  | cons hd tl ih =>
    obtain ⟨n, v⟩ := hd
    by_cases h : n = k
    · subst h
      simp [alistLookup, keysOf]
    · simp [alistLookup, keysOf, h, ih, Ne.symm h]

theorem hasKey_iff_mem_keys {α : Type} (l : List (String × α)) (k : String) :
    hasKey l k = true ↔ k ∈ keysOf l :=
  alistLookup_isSome_iff_mem_keys l k

theorem mem_of_alistLookup_eq_some {α : Type} {l : List (String × α)}
    {k : String} {v : α} (h : alistLookup l k = some v) : (k, v) ∈ l := by
  induction l with
  | nil => simp [alistLookup] at h
  | cons hd tl ih =>
    obtain ⟨n, w⟩ := hd
    by_cases hn : n = k
    · subst hn
      simp [alistLookup] at h
      simp [h]
    · simp [alistLookup, hn] at h
      exact List.mem_cons_of_mem _ (ih h)

theorem hasKey_append {α : Type} (a b : List (String × α)) (k : String) :
    hasKey (a ++ b) k = (hasKey a k || hasKey b k) := by
  induction a with
  | nil => simp [hasKey, alistLookup]
  | cons hd tl ih =>
    obtain ⟨n, v⟩ := hd
    by_cases hn : n = k
    · simp [hasKey, alistLookup, hn]
    · simpa [hasKey, alistLookup, hn] using ih

theorem firstTitleProp_mem_keys {props : PropsMeta} {n : String}
    (h : firstTitleProp props = some n) : n ∈ keysOf props := by
  induction props with
  | nil => simp [firstTitleProp] at h
  | cons hd tl ih =>
    obtain ⟨name, p⟩ := hd
    by_cases ht : p.type = some "title"
    · simp [firstTitleProp, ht] at h
      simp [keysOf, h]
    · simp [firstTitleProp, ht] at h
      simp [keysOf] at ih ⊢
      exact Or.inr (ih h)

/-! ### Claim C8 -/

/-- Claim C8: the diff of a schema with itself has empty `missing`,
`extra` and `type_mismatch`; and the `missing` list of the diff with
reference `B` and current `A` equals the `extra` list of the diff with
reference `A` and current `B` (`compare` takes the current schema first). -/
theorem C8_diff_symmetric_complementary (X A B : Schema) :
    compare X X = ⟨[], [], []⟩ ∧ (compare A B).missing = (compare B A).extra := by
  refine ⟨?_, rfl⟩
  have h1 : (keysOf X).filter (fun k => !hasKey X k) = [] := by
    rw [List.filter_eq_nil_iff]
    intro a ha
    simp [(hasKey_iff_mem_keys X a).mpr ha]
  have h3 : (keysOf X).filter
      (fun k => hasKey X k && (alistLookup X k != alistLookup X k)) = [] := by
    rw [List.filter_eq_nil_iff]
    intro a ha
    simp
  have hc : compare X X =
      ⟨(keysOf X).filter (fun k => !hasKey X k),
       (keysOf X).filter (fun k => !hasKey X k),
       (keysOf X).filter
         (fun k => hasKey X k && (alistLookup X k != alistLookup X k))⟩ := rfl
  rw [hc, h1, h3]

/-! ### Claim C1 -/

/-- Claim C1 (counterexample): on curr `{B: number, A: number}` and
reference `{A: text, B: select}`, both keys have mismatched types;
`architecte.py` lists them in the reference's key order `["A", "B"]`
but `pierre.py`'s compare iterates the current schema and yields
`["B", "A"]`, so the claim's ordering statement fails for pierre. -/
theorem C1_counterexample :
    (compare [("B", "number"), ("A", "number")]
        [("A", "text"), ("B", "select")]).type_mismatch = ["A", "B"] ∧
    (comparePierre [("B", "number"), ("A", "number")]
        [("A", "text"), ("B", "select")]).type_mismatch = ["B", "A"] ∧
    (["B", "A"] : List String) ≠ ["A", "B"] := by
  refine ⟨by decide, by decide, by decide⟩

/-- Claim C1 (amended): `missing` holds exactly the reference keys absent
from the current schema, in the reference's key order; `extra` holds
exactly the current keys absent from the reference, in the current
schema's key order; `type_mismatch` holds exactly the keys present in
both with differing type tags — in the reference's key order for
`architecte.py`'s compare, while `pierre.py`'s compare produces the same
three sets but lists `type_mismatch` in the current schema's key order. -/
theorem C1_compare_ordering_amended (curr target : Schema) :
    (∀ k, k ∈ (compare curr target).missing ↔
      k ∈ keysOf target ∧ hasKey curr k = false) ∧
    (compare curr target).missing.Sublist (keysOf target) ∧
    (∀ k, k ∈ (compare curr target).extra ↔
      k ∈ keysOf curr ∧ hasKey target k = false) ∧
    (compare curr target).extra.Sublist (keysOf curr) ∧
    (∀ k, k ∈ (compare curr target).type_mismatch ↔
      k ∈ keysOf target ∧ k ∈ keysOf curr ∧
        alistLookup target k ≠ alistLookup curr k) ∧
    (compare curr target).type_mismatch.Sublist (keysOf target) ∧
    (comparePierre curr target).missing = (compare curr target).missing ∧
    (comparePierre curr target).extra = (compare curr target).extra ∧
    (∀ k, k ∈ (comparePierre curr target).type_mismatch ↔
      k ∈ (compare curr target).type_mismatch) ∧
    (comparePierre curr target).type_mismatch.Sublist (keysOf curr) := by
  refine ⟨fun k => ?_, ?_, fun k => ?_, ?_, fun k => ?_, ?_, rfl, rfl,
    fun k => ?_, ?_⟩
  · show k ∈ (keysOf target).filter (fun k => !hasKey curr k) ↔ _
    rw [List.mem_filter]
    simp
  · exact List.filter_sublist _
  · show k ∈ (keysOf curr).filter (fun k => !hasKey target k) ↔ _
    rw [List.mem_filter]
    simp
  · exact List.filter_sublist _
  · show k ∈ (keysOf target).filter
        (fun k => hasKey curr k && (alistLookup target k != alistLookup curr k)) ↔ _
    rw [List.mem_filter]
    simp [hasKey_iff_mem_keys, bne_iff_ne, and_assoc]
  · exact List.filter_sublist _
  · show k ∈ (keysOf curr).filter
        (fun k => hasKey target k && (alistLookup curr k != alistLookup target k)) ↔
      k ∈ (keysOf target).filter
        (fun k => hasKey curr k && (alistLookup target k != alistLookup curr k))
    rw [List.mem_filter, List.mem_filter]
    simp only [Bool.and_eq_true, bne_iff_ne, hasKey_iff_mem_keys]
    constructor
    · rintro ⟨h1, h2, h3⟩
      exact ⟨h2, h1, Ne.symm h3⟩
    · rintro ⟨h1, h2, h3⟩
      exact ⟨h2, h1, Ne.symm h3⟩
  · exact List.filter_sublist _

/-! ### Claim C10 -/

/-- Claim C10: the three diff lists are pairwise disjoint, for both
compare variants. -/
theorem C10_diff_lists_pairwise_disjoint (curr target : Schema) (k : String) :
    (k ∈ (compare curr target).missing → k ∉ (compare curr target).extra) ∧
    (k ∈ (compare curr target).missing →
      k ∉ (compare curr target).type_mismatch) ∧
    (k ∈ (compare curr target).extra →
      k ∉ (compare curr target).type_mismatch) ∧
    (k ∈ (comparePierre curr target).missing →
      k ∉ (comparePierre curr target).extra) ∧
    (k ∈ (comparePierre curr target).missing →
      k ∉ (comparePierre curr target).type_mismatch) ∧
    (k ∈ (comparePierre curr target).extra →
      k ∉ (comparePierre curr target).type_mismatch) := by
  refine ⟨fun h h2 => ?_, fun h h2 => ?_, fun h h2 => ?_,
    fun h h2 => ?_, fun h h2 => ?_, fun h h2 => ?_⟩
  · rcases List.mem_filter.mp h with ⟨-, hpc⟩
    rcases List.mem_filter.mp h2 with ⟨hkc, -⟩
    rw [← hasKey_iff_mem_keys] at hkc
    simp [hkc] at hpc
  · rcases List.mem_filter.mp h with ⟨-, hpc⟩
    rcases List.mem_filter.mp h2 with ⟨-, hpm⟩
    rcases Bool.and_eq_true .. |>.mp hpm with ⟨hck, -⟩
    simp [hck] at hpc
  · rcases List.mem_filter.mp h with ⟨-, hpc⟩
    rcases List.mem_filter.mp h2 with ⟨hkt, -⟩
    rw [← hasKey_iff_mem_keys] at hkt
    simp [hkt] at hpc
  · rcases List.mem_filter.mp h with ⟨-, hpc⟩
    rcases List.mem_filter.mp h2 with ⟨hkc, -⟩
    rw [← hasKey_iff_mem_keys] at hkc
    simp [hkc] at hpc
  · rcases List.mem_filter.mp h with ⟨-, hpc⟩
    rcases List.mem_filter.mp h2 with ⟨hkc, -⟩
    rw [← hasKey_iff_mem_keys] at hkc
    simp [hkc] at hpc
  · rcases List.mem_filter.mp h with ⟨-, hpc⟩
    rcases List.mem_filter.mp h2 with ⟨-, hpm⟩
    rcases Bool.and_eq_true .. |>.mp hpm with ⟨hck, -⟩
    simp [hck] at hpc

/-- Claim C10 (witness): a concrete key in `missing` and therefore not in
`extra`. -/
theorem C10_witness :
    ("A" ∈ (compare [("B", "x")] [("A", "y")]).missing) ∧
    ("A" ∉ (compare [("B", "x")] [("A", "y")]).extra) :=
  ⟨by decide,
   (C10_diff_lists_pairwise_disjoint [("B", "x")] [("A", "y")] "A").1 (by decide)⟩

/-! ### Claim C2 -/

/-- Claim C2 (counterexample): `pierre.py`'s `verify_token` answers 403 —
not 401 — to a request with no token while the secret is configured, and
blocks (403) a request that supplies a token while the secret is not
configured. -/
theorem C2_counterexample :
    verify_token (some "secret") none =
      AuthResult.httpError 403 "Token invalide" ∧
    verify_token none (some "anything") =
      AuthResult.httpError 403 "Token invalide" := by
  refine ⟨by decide, by decide⟩

/-- Claim C2 (amended): `architecte.py`'s `require_token` behaves as
claimed (unset or empty secret: every request passes; configured secret:
missing token 401, wrong token 403). `pierre.py`'s `verify_token`
instead answers 403 to any request whose token header differs from the
configured secret — including a missing token — and, when the secret is
not configured, blocks with 403 every request that supplies a token
header, passing only requests with none. -/
theorem C2_token_checks_amended (secret t : String) (x a h : Option String) :
    require_token none x a = AuthResult.ok ∧
    require_token (some "") x a = AuthResult.ok ∧
    (secret ≠ "" → require_token (some secret) none none =
      AuthResult.httpError 401 "X-Token manquant") ∧
    (secret ≠ "" → t ≠ "" → t ≠ secret →
      require_token (some secret) (some t) a =
        AuthResult.httpError 403 "X-Token invalide") ∧
    (verify_token (some secret) h = AuthResult.ok ↔ h = some secret) ∧
    (h ≠ some secret → verify_token (some secret) h =
      AuthResult.httpError 403 "Token invalide") ∧
    verify_token none none = AuthResult.ok ∧
    verify_token none (some t) = AuthResult.httpError 403 "Token invalide" := by
  refine ⟨rfl, rfl, ?_, ?_, ?_, ?_, rfl, by simp [verify_token]⟩
  · intro hs
    have hb : (secret == "") = false := beq_eq_false_iff_ne.mpr hs
    simp [require_token, truthyStr, _read_token_from_headers, hb]
  · intro hs ht hts
    have hb : (secret == "") = false := beq_eq_false_iff_ne.mpr hs
    have htb : (t == "") = false := beq_eq_false_iff_ne.mpr ht
    simp [require_token, truthyStr, _read_token_from_headers, hb, htb, hts]
  · by_cases heq : h = some secret <;> simp [verify_token, heq]
  · intro hne
    simp [verify_token, hne]

/-- Claim C2 (witness): the amended behaviour at concrete inputs. -/
theorem C2_witness :
    require_token (some "s") none none =
      AuthResult.httpError 401 "X-Token manquant" ∧
    require_token (some "s") (some "w") none =
      AuthResult.httpError 403 "X-Token invalide" ∧
    verify_token (some "s") none = AuthResult.httpError 403 "Token invalide" :=
  ⟨(C2_token_checks_amended "s" "w" none none none).2.2.1 (by decide),
   (C2_token_checks_amended "s" "w" none none none).2.2.2.1
     (by decide) (by decide) (by decide),
   (C2_token_checks_amended "s" "w" none none none).2.2.2.2.2.1 (by decide)⟩

/-! ### Claim C3 -/

/-- Claim C3: title derivation in the rows listing is total — each item's
title is `deriveTitle` of its row; a row with no title-typed property
derives `""`, and a looked-up title property with an empty run list
derives `""` (the function is total by construction, so no error can
be raised). -/
theorem C3_title_derivation_total (titleProp : String) (props : RowProps)
    (metaProps : PropsMeta) (results : List Row) :
    (rowsItems metaProps results).map Item.title =
      results.map (fun r =>
        deriveTitle (pyOrStr (firstTitleProp metaProps) "title")
          r.properties) ∧
    ((∀ nv ∈ props, nv.2.type ≠ some "title") →
      deriveTitle titleProp props = "") ∧
    (∀ tp, alistLookup props titleProp = some tp → tp.title.getD [] = [] →
      deriveTitle titleProp props = "") := by
  refine ⟨?_, ?_, ?_⟩
  · simp [rowsItems]
  · intro h
    cases hl : alistLookup props titleProp with
    | none => simp [deriveTitle, hl]
    | some tp =>
      have hne : tp.type ≠ some "title" :=
        h (titleProp, tp) (mem_of_alistLookup_eq_some hl)
      simp [deriveTitle, hl, hne]
  · intro tp hl hrun
    by_cases ht : tp.type = some "title"
    · simp [deriveTitle, hl, ht, hrun, String.join]
    · simp [deriveTitle, hl, ht]

/-- Claim C3 (witness): a row whose only property is select-typed derives
the empty title. -/
theorem C3_witness :
    deriveTitle "Name" [("Name", ⟨some "select", none⟩)] = "" :=
  (C3_title_derivation_total "Name" [("Name", ⟨some "select", none⟩)]
    [] []).2.1 (by decide)

/-! ### Claim C4 -/

/-- Helper for claim C4: `pierre.py`'s comprehension propagates a failure
as soon as one property omits its type tag. -/
theorem analyseSchemaPierre_eq_none {props : PropsMeta} {nm : String × PropMeta}
    (hmem : nm ∈ props) (ht : nm.2.type = none) :
    analyseSchemaPierre props = none := by
  induction props with
  | nil => simp at hmem
  | cons hd tl ih =>
    rcases List.mem_cons.mp hmem with heq | htl
    · subst heq
      simp [analyseSchemaPierre, ht]
    · cases hhd : hd.2.type with
      | none => simp [analyseSchemaPierre, hhd]
      | some t => simp [analyseSchemaPierre, hhd, ih htl]

/-- Helper for claim C4: when every property carries a type tag,
`pierre.py`'s comprehension succeeds. -/
theorem analyseSchemaPierre_isSome {props : PropsMeta}
    (h : ∀ nm ∈ props, nm.2.type ≠ none) :
    ∃ s, analyseSchemaPierre props = some s := by
  induction props with
  | nil => exact ⟨[], rfl⟩
  | cons hd tl ih =>
    obtain ⟨t, htt⟩ : ∃ t, hd.2.type = some t := by
      cases hhd : hd.2.type with
      | none => exact absurd hhd (h hd (List.mem_cons_self hd tl))
      | some t => exact ⟨t, rfl⟩
    obtain ⟨s, hs⟩ := ih (fun nm hnm => h nm (List.mem_cons_of_mem _ hnm))
    exact ⟨(hd.1, t) :: s, by simp [analyseSchemaPierre, htt, hs]⟩

/-- Claim C4 (counterexample): on a metadata payload whose single
property omits its type tag, `architecte.py`'s `_schema_of` substitutes
`"unknown"` but `pierre.py`'s `analyse` fails instead of substituting. -/
theorem C4_counterexample :
    analyseSchemaPierre [("A", ⟨none⟩)] = none ∧
    schema_of [("A", ⟨none⟩)] = [("A", "unknown")] ∧
    (none : Option Schema) ≠ some [("A", "unknown")] := by
  refine ⟨by decide, by decide, by decide⟩

/-- Claim C4 (amended): `architecte.py`'s `_schema_of` maps each property
name to its declared type tag, substituting the sentinel `"unknown"`
for an omitted tag; `pierre.py`'s `analyse`, by contrast, fails
(raises) whenever any property omits its tag, and succeeds when none
does. -/
theorem C4_schema_retrieval_amended (props : PropsMeta) :
    keysOf (schema_of props) = keysOf props ∧
    (∀ n m, (n, m) ∈ props → (n, m.type.getD "unknown") ∈ schema_of props) ∧
    ((∀ nm ∈ props, nm.2.type ≠ none) →
      ∃ s, analyseSchemaPierre props = some s) ∧
    (∀ nm ∈ props, nm.2.type = none → analyseSchemaPierre props = none) := by
  refine ⟨?_, ?_, fun h => analyseSchemaPierre_isSome h,
    fun nm hmem ht => analyseSchemaPierre_eq_none hmem ht⟩
  · simp [keysOf, schema_of]
  · intro n m hm
    exact List.mem_map_of_mem _ hm

/-- Claim C4 (witness): the amended behaviour at a concrete payload. -/
theorem C4_witness :
    ∃ s, analyseSchemaPierre [("A", ⟨some "title"⟩)] = some s :=
  (C4_schema_retrieval_amended [("A", ⟨some "title"⟩)]).2.2.1 (by decide)

/-! ### Claim C5 -/

/-- Helper for claim C5: `_create_log_entry` never lets an exception
escape — every run returns `Except.ok`. -/
theorem create_log_entry_is_ok (env : LogEnv) (m l : String)
    (e : Option MetaDict) :
    ∃ o, _create_log_entry env m l e = Except.ok o := by
  by_cases h1 : truthyStr env.logsDb = true
  · by_cases h2 : (env.hasNotionClient || truthyStr env.notionToken) = true
    · cases hm : env.metaFetch with
      | error err => exact ⟨none, by simp [_create_log_entry, h1, h2, hm]⟩
      | ok pm =>
        cases hp : env.pageCreate (buildLogProps
            (pyOrStr (firstTitleProp pm) "Name") pm m l e env.now) with
        | error err =>
          exact ⟨none, by simp [_create_log_entry, h1, h2, hm, hp]⟩
        | ok res =>
          exact ⟨some res, by simp [_create_log_entry, h1, h2, hm, hp]⟩
    · exact ⟨none, by simp [_create_log_entry, h1, h2]⟩
  · exact ⟨none, by simp [_create_log_entry, h1]⟩

/-- Claim C5: every failure mode of the log write — unconfigured logs
database, missing credentials, failed schema discovery, rejected page
creation — yields `Except.ok none` (an empty result) instead of an
error, no run of `_create_log_entry` ever returns `Except.error`, and
the compare request that triggers the write always answers its diff
unaffected. -/
theorem C5_log_write_failures_contained (env : LogEnv) (m l : String)
    (e : Option MetaDict) (curr target : Schema) :
    (∃ o, _create_log_entry env m l e = Except.ok o) ∧
    (truthyStr env.logsDb = false →
      _create_log_entry env m l e = Except.ok none) ∧
    (env.hasNotionClient = false → truthyStr env.notionToken = false →
      _create_log_entry env m l e = Except.ok none) ∧
    (∀ msg, env.metaFetch = Except.error msg →
      _create_log_entry env m l e = Except.ok none) ∧
    ((∀ p, ∃ msg, env.pageCreate p = Except.error msg) →
      _create_log_entry env m l e = Except.ok none) ∧
    compare_endpoint env curr target = Except.ok (compare curr target) := by
  refine ⟨create_log_entry_is_ok env m l e, ?_, ?_, ?_, ?_, ?_⟩
  · intro h
    simp [_create_log_entry, h]
  · intro hc ht
    by_cases h1 : truthyStr env.logsDb = true <;>
      simp [_create_log_entry, h1, hc, ht]
  · intro msg hm
    by_cases h1 : truthyStr env.logsDb = true <;>
      by_cases h2 : (env.hasNotionClient || truthyStr env.notionToken) = true <;>
        simp [_create_log_entry, h1, h2, hm]
  · intro hp
    by_cases h1 : truthyStr env.logsDb = true
    · by_cases h2 : (env.hasNotionClient || truthyStr env.notionToken) = true
      · cases hm : env.metaFetch with
        | error err => simp [_create_log_entry, h1, h2, hm]
        | ok pm =>
          obtain ⟨msg, hmsg⟩ := hp (buildLogProps
            (pyOrStr (firstTitleProp pm) "Name") pm m l e env.now)
          simp [_create_log_entry, h1, h2, hm, hmsg]
      · simp [_create_log_entry, h1, h2]
    · simp [_create_log_entry, h1]
  · obtain ⟨o, ho⟩ := create_log_entry_is_ok env "Compare db → ref" "INFO"
      (some [("missing", String.join ((compare curr target).missing.take 5)),
             ("extra", String.join ((compare curr target).extra.take 5)),
             ("types", String.join ((compare curr target).type_mismatch.take 5))])
    simp [compare_endpoint, ho]

/-- Claim C5 (witness): with nothing configured and every upstream call
failing, the log write still returns an empty result, not an error. -/
theorem C5_witness :
    _create_log_entry
      ⟨none, false, none, Except.error "down", fun _ => Except.error "down", "t"⟩
      "m" "INFO" none = Except.ok none :=
  (C5_log_write_failures_contained
    ⟨none, false, none, Except.error "down", fun _ => Except.error "down", "t"⟩
    "m" "INFO" none [] []).2.1 rfl

/-! ### Claim C6 -/

/-- Claim C6 (counterexample): `_mask` returns a non-empty secret of at
most 8 characters verbatim, so the raw value is returned for short
secrets, contradicting the claim that the masked output always differs
from the raw value. -/
theorem C6_counterexample :
    ("abc" : String) ≠ "" ∧ _mask (some "abc") = some "abc" := by
  refine ⟨by decide, by decide⟩

/-- Claim C6 (amended): each `/debug/env_status` entry carries only a
presence flag and the `_mask` of the value; the mask of a secret longer
than 8 characters keeps its first 4 and last 4 characters joined by
`"..."` (11 characters in all), so a secret longer than 11 characters
is never returned raw — but a non-empty secret of at most 8 characters
is returned unchanged as its own mask. -/
theorem C6_env_status_masking_amended (getenv : String → Option String)
    (keys : List String) (k : String) (en : EnvEntry) (s : String) :
    ((k, en) ∈ _env_status getenv keys →
      en.present = truthyStr (getenv k) ∧ en.masked = _mask (getenv k)) ∧
    (s ≠ "" → s.length ≤ 8 → _mask (some s) = some s) ∧
    (s.length > 8 →
      _mask (some s) = some (String.mk (s.data.take 4 ++ ['.', '.', '.']
        ++ s.data.drop (s.length - 4)))) ∧
    (s.length > 11 → _mask (some s) ≠ some s) := by
  have hd : s.data.length = s.length := rfl
  refine ⟨?_, ?_, ?_, ?_⟩
  · intro hmem
    obtain ⟨key, hkmem, heq⟩ := List.mem_map.mp hmem
    cases heq
    exact ⟨rfl, rfl⟩
  · intro hne hlen
    have hb : (s == "") = false := beq_eq_false_iff_ne.mpr hne
    have hn8 : ¬s.length > 8 := by omega
    simp [_mask, truthyStr, hb, maskChars, hn8]
  · intro hlen
    have hne : s ≠ "" := by
      intro h
      subst h
      exact absurd hlen (by decide)
    have hb : (s == "") = false := beq_eq_false_iff_ne.mpr hne
    simp [_mask, truthyStr, hb, maskChars, hlen]
  · intro hlen heq
    have h8 : s.length > 8 := by omega
    have hne : s ≠ "" := by
      intro h
      subst h
      exact absurd hlen (by decide)
    have hb : (s == "") = false := beq_eq_false_iff_ne.mpr hne
    have hmask : _mask (some s) = some (String.mk (s.data.take 4
        ++ ['.', '.', '.'] ++ s.data.drop (s.length - 4))) := by
      simp [_mask, truthyStr, hb, maskChars, h8]
    rw [hmask] at heq
    have hdata : s.data.take 4 ++ ['.', '.', '.']
        ++ s.data.drop (s.length - 4) = s.data := by
      have hmk := Option.some.inj heq
      exact congrArg String.data hmk
    have hlength := congrArg List.length hdata
    have h4 : min 4 s.data.length = 4 := Nat.min_eq_left (by omega)
    simp only [List.length_append, List.length_take, List.length_drop,
      List.length_cons, List.length_nil, hd, h4] at hlength
    omega

/-- Claim C6 (witness): a short secret masks to itself; a 12-character
secret never does. -/
theorem C6_witness :
    _mask (some "ab") = some "ab" ∧
    _mask (some "abcdefghijkl") ≠ some "abcdefghijkl" :=
  ⟨(C6_env_status_masking_amended (fun _ => none) [] "k" ⟨false, none⟩
      "ab").2.1 (by decide) (by decide),
   (C6_env_status_masking_amended (fun _ => none) [] "k" ⟨false, none⟩
      "abcdefghijkl").2.2.2 (by decide)⟩

/-! ### Claim C7 -/

/-- Helper for claim C7: the discovered title slot never collides with a
key that is absent from the schema and different from `"Name"`. -/
theorem titleSlot_ne_of_not_hasKey (pm : PropsMeta) (k : String)
    (hk : hasKey pm k = false) (hnm : k ≠ "Name") :
    pyOrStr (firstTitleProp pm) "Name" ≠ k := by
  cases hf : firstTitleProp pm with
  | none =>
    simp [pyOrStr]
    exact Ne.symm hnm
  | some n =>
    by_cases hn : n = ""
    · simp [pyOrStr, hn]
      exact Ne.symm hnm
    · simp [pyOrStr, hn]
      intro heq
      subst heq
      have hmem := firstTitleProp_mem_keys hf
      rw [← hasKey_iff_mem_keys] at hmem
      rw [hmem] at hk
      exact Bool.noConfusion hk

/-- Helper for claim C7: looking up a key after a dict assignment finds
the assigned value for that key and is unchanged for every other key. -/
theorem alistLookup_dictAssign {α : Type} (d : List (String × α)) (k : String)
    (v : α) (k2 : String) :
    alistLookup (dictAssign d k v) k2 =
      if k = k2 then some v else alistLookup d k2 := by
  induction d with
  | nil => by_cases h : k = k2 <;> simp [dictAssign, alistLookup, h]
  | cons hd tl ih =>
    obtain ⟨n, w⟩ := hd
    by_cases hn : n = k
    · subst hn
      by_cases h2 : n = k2 <;> simp [dictAssign, alistLookup, h2]
    · by_cases h2 : n = k2
      · subst h2
        have hkk : k ≠ n := fun hh => hn hh.symm
        simp [dictAssign, alistLookup, hn, hkk]
      · simp [dictAssign, alistLookup, hn, h2, ih]

/-- Helper for claim C7: the value the outgoing log payload holds at any
key — the last assignment wins (`"Date du changement"`, then `"Meta"`,
then `"Type"`, then the title slot), exactly as with the Python dict. -/
theorem alistLookup_buildLogProps (t : String) (pm : PropsMeta) (m l : String)
    (e : Option MetaDict) (now : String) (k : String) :
    alistLookup (buildLogProps t pm m l e now) k =
      if hasKey pm "Date du changement" = true ∧
          ("Date du changement" : String) = k then
        some (LogValue.dateV now)
      else if (hasKey pm "Meta" && truthyMeta e) = true ∧
          ("Meta" : String) = k then
        some (LogValue.richTextV (metaToString (e.getD [])))
      else if (hasKey pm "Type" && !(l == "")) = true ∧
          ("Type" : String) = k then
        some (LogValue.selectV l)
      else if t = k then some (LogValue.titleV m)
      else none := by
  unfold buildLogProps
  by_cases c1 : (hasKey pm "Type" && !(l == "")) = true <;>
    by_cases c2 : (hasKey pm "Meta" && truthyMeta e) = true <;>
      by_cases c3 : hasKey pm "Date du changement" = true <;>
        simp [c1, c2, c3, alistLookup_dictAssign, alistLookup]

/-- Claim C7 (counterexample): writing to a logs database whose schema
has no properties at all, the payload still populates the fallback
title field `"Name"`, which does not exist in the discovered schema —
so not only schema-present fields are populated. -/
theorem C7_counterexample :
    logPayload [] "m" "INFO" none "t" = [("Name", LogValue.titleV "m")] ∧
    hasKey ([] : PropsMeta) "Name" = false := by
  refine ⟨by decide, by decide⟩

/-- Claim C7 (amended): in `architecte.py`'s log write the auxiliary
fields are schema-gated — `"Type"`, `"Meta"` and the timestamp
`"Date du changement"` each appear in the outgoing payload only when
the discovered logs schema has them (`"Meta"` absent from the schema is
omitted from the payload entirely), and when present (with a truthy
level/extra) the payload's value at that key is the auxiliary value,
overwriting the title entry if the discovered title property bears the
same name (Python dict assignment) — while the title field falls back
to the name `"Name"` even when no title-typed property exists in the
schema, and carries the message whenever its slot is not one of the
three auxiliary names. (`pierre.py`'s `create_log` does no discovery at
all and always sends the fixed fields `"Description du changement"`
and `"Date du changement"`.) -/
theorem C7_log_payload_schema_gated_amended (pm : PropsMeta)
    (m l : String) (e : Option MetaDict) (now : String) :
    (hasKey pm "Type" = false →
      hasKey (logPayload pm m l e now) "Type" = false) ∧
    (hasKey pm "Meta" = false →
      hasKey (logPayload pm m l e now) "Meta" = false) ∧
    (hasKey pm "Date du changement" = false →
      hasKey (logPayload pm m l e now) "Date du changement" = false) ∧
    (hasKey pm "Type" = true → l ≠ "" →
      alistLookup (logPayload pm m l e now) "Type" =
        some (LogValue.selectV l)) ∧
    (hasKey pm "Meta" = true → truthyMeta e = true →
      alistLookup (logPayload pm m l e now) "Meta" =
        some (LogValue.richTextV (metaToString (e.getD [])))) ∧
    (hasKey pm "Date du changement" = true →
      alistLookup (logPayload pm m l e now) "Date du changement" =
        some (LogValue.dateV now)) ∧
    (pyOrStr (firstTitleProp pm) "Name" ∉
        (["Type", "Meta", "Date du changement"] : List String) →
      alistLookup (logPayload pm m l e now)
        (pyOrStr (firstTitleProp pm) "Name") = some (LogValue.titleV m)) := by
  refine ⟨?_, ?_, ?_, ?_, ?_, ?_, ?_⟩
  · intro h
    have ht := titleSlot_ne_of_not_hasKey pm "Type" h (by decide)
    rw [logPayload, hasKey, alistLookup_buildLogProps]
    simp [h, ht]
  · intro h
    have ht := titleSlot_ne_of_not_hasKey pm "Meta" h (by decide)
    rw [logPayload, hasKey, alistLookup_buildLogProps]
    simp [h, ht]
  · intro h
    have ht := titleSlot_ne_of_not_hasKey pm "Date du changement" h (by decide)
    rw [logPayload, hasKey, alistLookup_buildLogProps]
    simp [h, ht]
  · intro h hl
    have hlb : (l == "") = false := beq_eq_false_iff_ne.mpr hl
    rw [logPayload, alistLookup_buildLogProps]
    simp [h, hlb]
  · intro h he
    rw [logPayload, alistLookup_buildLogProps]
    simp [h, he]
  · intro h
    rw [logPayload, alistLookup_buildLogProps]
    simp [h]
  · intro hnotin
    simp only [List.mem_cons, not_or] at hnotin
    obtain ⟨h1, h2, h3, -⟩ := hnotin
    rw [logPayload, alistLookup_buildLogProps]
    simp [Ne.symm h1, Ne.symm h2, Ne.symm h3]

/-- Claim C7 (witness): a logs schema without a `"Meta"` property yields
a payload without a `"Meta"` field. -/
theorem C7_witness :
    hasKey (logPayload [("X", PropMeta.mk (some "select"))]
      "m" "INFO" none "t") "Meta" = false :=
  (C7_log_payload_schema_gated_amended [("X", PropMeta.mk (some "select"))]
    "m" "INFO" none "t").2.1 (by decide)

/-! ### Claim C9 -/

/-- Claim C9: any `limit` outside `[1, 100]` (in particular 0 and 101)
fails the declared boundary validation, so the rows request is rejected
with 422 and zero upstream calls are issued; a valid `limit` reaches
the handler and its response carries the normalised items. -/
theorem C9_limit_rejected_at_boundary (metaProps : PropsMeta)
    (results : List Row) (limit : Int) :
    (limit < 1 ∨ 100 < limit →
      get_rows_pipeline metaProps results limit = (Except.error 422, 0)) ∧
    (limitValid limit = true →
      get_rows_pipeline metaProps results limit =
        (Except.ok (rowsItems metaProps results), 2)) := by
  constructor
  · intro h
    have hv : limitValid limit = false := by
      cases h with
      | inl h1 => simp [limitValid, show ¬(1 : Int) ≤ limit by omega]
      | inr h2 => simp [limitValid, show ¬limit ≤ (100 : Int) by omega]
    simp [get_rows_pipeline, hv]
  · intro h
    simp [get_rows_pipeline, h]

/-- Claim C9 (witness): limits 0 and 101 are both rejected before any
remote call. -/
theorem C9_witness :
    get_rows_pipeline [] [] 0 = (Except.error 422, 0) ∧
    get_rows_pipeline [] [] 101 = (Except.error 422, 0) :=
  ⟨(C9_limit_rejected_at_boundary [] [] 0).1 (by decide),
   (C9_limit_rejected_at_boundary [] [] 101).1 (by decide)⟩
